import Mathlib

/-!
Verification of the redis-pooling library (src/src/redis-pooling.ts) against its
natural-language specification.

The embedding models the pool-lifecycle engine as pure Lean functions:

* `ManagedRedisClient` is the managed connection.  Fields that in the source are
  answers from the external world (whether `select` succeeds, when and how the
  `ping` probe settles) are carried as oracle fields on the client, so that the
  control flow of the TypeScript functions can be reproduced exactly.
* `ClientPool` models one `generic-pool` bounded pool: an idle list
  (`available`), a borrowed list, the factory's bound partition index, and the
  pool sizing options.  `drainMs` is the oracle for how long `drain()`+`clear()`
  takes to settle (`none` = never settles, e.g. a borrowed connection that is
  never released).
* The partition-pool registry (a JS `Map` iterated in insertion order) is an
  association list `PoolMap`; `mapGet`/`mapSet`/`mapDelete` mirror
  `Map.get`/`Map.set`/`Map.delete`.
* `createRedisPool`, `acquire`, `release`, `validate`, `getKeys`, `deleteKeys`
  and `destroy` are direct translations of the corresponding functions of
  src/src/redis-pooling.ts.
-/

/-! ## Constants (src/src/redis-pooling.ts lines 27-30) -/

def DEFAULT_CONNECT_TIMEOUT : Nat := 5000
def DEFAULT_MAX_POOLING_SIZE : Nat := 10
def DEFAULT_MIN_POOLING_SIZE : Nat := 0
def REDIS_PING_TIMEOUT_MS : Nat := 3000

/-! ## Managed connection -/

/-- A managed Redis connection (`ManagedRedisClient`).  `status` is the status
string reported by the underlying ioredis client (`"connecting"`, `"ready"`,
`"close"`, `"end"`, ...).  `originalDbIndex` is the `_originalDbIndex` tag set
by the connection factory; `selectedDb` is the database the connection's
active `SELECT` currently points at.  `selectOk`, `pingMs` and `pingOk` are
oracles for the behaviour of the external store: whether `client.select`
succeeds, at which millisecond the `PING` probe settles, and whether it
resolves (`true`) or rejects (`false`). -/
structure ManagedRedisClient where
  id : Nat
  status : String
  originalDbIndex : Option Nat
  selectedDb : Nat
  selectOk : Bool
  pingMs : Nat
  pingOk : Bool
deriving Repr, DecidableEq

/-! ## One generic-pool bounded pool -/

/-- One per-partition bounded pool (`genericPool.Pool`).  `factoryDbIndex` is
the partition index the pool's factory is closed over; `drainMs` is the time
for `drain()` followed by `clear()` to settle (`none`: never, e.g. a borrowed
connection is never released). -/
structure ClientPool where
  available : List ManagedRedisClient
  borrowed : List ManagedRedisClient
  factoryDbIndex : Nat
  max : Nat
  min : Nat
  testOnBorrow : Bool
  drainMs : Option Nat
deriving Repr, DecidableEq

/-- Models `pool.release(client)`: the client leaves the borrowed set and joins the
idle (available) set. -/
def ClientPool.releaseClient (p : ClientPool) (c : ManagedRedisClient) : ClientPool :=
  { p with borrowed := p.borrowed.filter (fun b => b.id ≠ c.id),
           available := c :: p.available }

/-- Models `pool.destroy(client)`: the client is removed from the pool permanently. -/
def ClientPool.destroyClient (p : ClientPool) (c : ManagedRedisClient) : ClientPool :=
  { p with borrowed := p.borrowed.filter (fun b => b.id ≠ c.id),
           available := p.available.filter (fun b => b.id ≠ c.id) }

/-! ## The partition-pool registry (`poolMap : Map<number, Pool>`) -/

/-- The registry: partition index → pool, in insertion order (a JS `Map`
preserves insertion order for iteration). -/
abbrev PoolMap := List (Nat × ClientPool)

/-- Models `poolMap.get(k)`. -/
def mapGet (m : PoolMap) (k : Nat) : Option ClientPool :=
  match m with
  | [] => none
  | (k', v) :: rest => if k' = k then some v else mapGet rest k

/-- Models `poolMap.set(k, v)`: replaces in place if the key exists, else appends
(insertion order). -/
def mapSet (m : PoolMap) (k : Nat) (v : ClientPool) : PoolMap :=
  match m with
  | [] => [(k, v)]
  | (k', v') :: rest => if k' = k then (k, v) :: rest else (k', v') :: mapSet rest k v

/-- The partition indices currently registered. -/
def registryKeys (m : PoolMap) : List Nat :=
  m.map Prod.fst

/-! ## Configuration and pool state -/

/-- The `RedisConfig` input (src/src/redis-pooling.ts lines 4-12); absent fields are
`none`. -/
structure RedisConfig where
  url : String
  db : Option Nat := none
  connectTimeout : Option Nat := none
  max : Option Nat := none
  min : Option Nat := none
  testOnBorrow : Option Bool := none
  enableTls : Option Bool := none
deriving Repr, DecidableEq

/-- The settings resolved at construction (lines 40-45): each config field with
its default applied. -/
structure PoolSettings where
  url : String
  db : Nat
  connectTimeout : Nat
  max : Nat
  min : Nat
  testOnBorrow : Bool
  enableTls : Bool
deriving Repr, DecidableEq

/-- The whole state owned by one `createRedisPool` call: resolved settings, the
partition-pool registry, and a fresh-id counter for newly created clients. -/
structure PoolState where
  settings : PoolSettings
  poolMap : PoolMap
  nextId : Nat
deriving Repr, DecidableEq

/-- Models `createRedisPool(config)` (lines 38-52): resolve defaults, reject an empty
URL synchronously (JS `!url` is true exactly for the empty string), then start
with an empty registry — no connection is attempted at construction. -/
def createRedisPool (config : RedisConfig) : Except String PoolState :=
  let settings : PoolSettings :=
    { url := config.url
      db := config.db.getD 0
      connectTimeout := config.connectTimeout.getD DEFAULT_CONNECT_TIMEOUT
      max := config.max.getD DEFAULT_MAX_POOLING_SIZE
      min := config.min.getD DEFAULT_MIN_POOLING_SIZE
      testOnBorrow := config.testOnBorrow.getD true
      enableTls := config.enableTls.getD false }
  if config.url = "" then
    Except.error "[RedisPooling] Redis connection url is required."
  else
    Except.ok { settings := settings, poolMap := [], nextId := 0 }

/-! ## Connection factory and health validator -/

/-- The factory's `create` (lines 56-176): a fresh ioredis client for database
`dbIndex`, tagged with `_originalDbIndex = dbIndex`.  A new eager client starts
in status `"connecting"`; its oracle fields default to a healthy environment. -/
def factoryCreate (dbIndex : Nat) (fresh : Nat) : ManagedRedisClient :=
  { id := fresh
    status := "connecting"
    originalDbIndex := some dbIndex
    selectedDb := dbIndex
    selectOk := true
    pingMs := 0
    pingOk := true }

/-- The factory's `validate` (lines 186-202): race `client.ping()` against a
`REDIS_PING_TIMEOUT_MS` timer.  The probe wins the race iff it settles strictly
before the timer fires; a rejected probe or a timeout is caught and yields
`false`; otherwise the result is whether `client.status === 'ready'` at that
moment.  The function is total (never throws). -/
def validate (client : ManagedRedisClient) : Bool :=
  if client.pingMs < REDIS_PING_TIMEOUT_MS then
    if client.pingOk then client.status = "ready" else false
  else
    false

/-- Models `createSingleDbPool(dbIndex)` (lines 54-210): a fresh empty bounded pool
whose factory is closed over `dbIndex`, configured with the resolved
max/min/testOnBorrow settings.  A fresh empty pool drains immediately. -/
def createSingleDbPool (s : PoolSettings) (dbIndex : Nat) : ClientPool :=
  { available := []
    borrowed := []
    factoryDbIndex := dbIndex
    max := s.max
    min := s.min
    testOnBorrow := s.testOnBorrow
    drainMs := some 0 }

/-- Models `getPool(dbIndex)` (lines 212-219): look the partition up in the registry;
on a miss, create the pool and register it. -/
def getPool (s : PoolSettings) (m : PoolMap) (dbIndex : Nat) : ClientPool × PoolMap :=
  match mapGet m dbIndex with
  | some pool => (pool, m)
  | none =>
      let pool := createSingleDbPool s dbIndex
      (pool, m ++ [(dbIndex, pool)])

/-! ## pool.acquire -/

/-- The generic-pool borrow walk over the idle list: when `testOnBorrow` is set,
an idle client that fails `validate` is evicted and the next one is tried. -/
def acquireFromIdle (testOnBorrow : Bool) :
    List ManagedRedisClient → Option ManagedRedisClient × List ManagedRedisClient
  | [] => (none, [])
  | c :: rest =>
      if testOnBorrow && !(validate c) then acquireFromIdle testOnBorrow rest
      else (some c, rest)

/-- Models `pool.acquire()`: hand out a (validated) idle client, or have the factory
create a new one.  (Waiting when the pool is at `max` capacity is a real-time
blocking behaviour and is not modelled.) -/
def ClientPool.acquireClient (p : ClientPool) (fresh : Nat) :
    ManagedRedisClient × ClientPool × Nat :=
  match acquireFromIdle p.testOnBorrow p.available with
  | (some c, rest) =>
      (c, { p with available := rest, borrowed := c :: p.borrowed }, fresh)
  | (none, _) =>
      let c := factoryCreate p.factoryDbIndex fresh
      (c, { p with available := [], borrowed := c :: p.borrowed }, fresh + 1)

/-- Models `acquire(dbIndex?)` (lines 222-228).  The effective partition is
`dbIndex ?? 0` — the literal constant 0, not the configured default `db`. -/
def acquire (st : PoolState) (dbIndex? : Option Nat) : ManagedRedisClient × PoolState :=
  let index := dbIndex?.getD 0
  let pm := getPool st.settings st.poolMap index
  let acq := pm.1.acquireClient st.nextId
  (acq.1, { st with poolMap := mapSet pm.2 index acq.2.1, nextId := acq.2.2 })

/-! ## release -/

/-- Models `release(client?)` (lines 229-263).  No-op on an absent client.  Otherwise:
the home partition is `_originalDbIndex ?? db`; the status switch sets
`needDestroy` for `"end"`/`"close"`, attempts `select(dbIndex)` for `"ready"`
(a failed select also sets `needDestroy`), and does nothing for any other
status; then, when the home pool still exists, the client is destroyed or
released according to `needDestroy`. -/
def release (st : PoolState) (client? : Option ManagedRedisClient) : PoolState :=
  match client? with
  | none => st
  | some client =>
      let dbIndex := client.originalDbIndex.getD st.settings.db
      let needDestroy : Bool :=
        if client.status = "end" ∨ client.status = "close" then true
        else if client.status = "ready" then !client.selectOk
        else false
      -- a successful `select(dbIndex)` resets the active database selection
      let returned : ManagedRedisClient :=
        if client.status = "ready" ∧ client.selectOk = true then
          { client with selectedDb := dbIndex }
        else client
      match mapGet st.poolMap dbIndex with
      | none => st
      | some pool =>
          if needDestroy then
            { st with poolMap := mapSet st.poolMap dbIndex (pool.destroyClient client) }
          else
            { st with poolMap := mapSet st.poolMap dbIndex (pool.releaseClient returned) }

/-! ## destroy -/

/-- Whether `drain()` + `clear()` of this pool settles within `t` ms, i.e.
before the `setTimeout(t)` rejection fires. -/
def completesWithin (p : ClientPool) (t : Nat) : Bool :=
  match p.drainMs with
  | some d => d ≤ t
  | none => false

/-- The `for (const [dbIndex, pool] of poolMap.entries())` loop of
`destroy(timeoutMs)` (lines 264-279), processed in registry iteration order.
Each partition's drain+clear is raced against the `timeoutMs` deadline; on
success the entry is deleted and the loop continues; on timeout the rejection
aborts the whole call, returning `some dbIndex` — the timeout error names the
offending partition index (`Timeout while draining Redis pool for DB index
dbIndex`) — and every remaining entry stays registered untouched. -/
def destroyLoop (t : Nat) : PoolMap → PoolMap × Option Nat
  | [] => ([], none)
  | (dbIndex, pool) :: rest =>
      if completesWithin pool t then destroyLoop t rest
      else ((dbIndex, pool) :: rest, some dbIndex)

/-- Models `destroy(timeoutMs = 5000)`: run the loop; the final registry is whatever
the loop left, and `some i` reports the timeout error naming partition `i`. -/
def destroy (st : PoolState) (timeoutMs? : Option Nat) : PoolState × Option Nat :=
  let t := timeoutMs?.getD 5000
  let (m, err) := destroyLoop t st.poolMap
  ({ st with poolMap := m }, err)

/-! ## getKeys / deleteKeys (lines 95-153)

The SCAN stream is modelled by the sequence of key batches its `data` events
deliver: `ScanResult.ok batches` for a stream that ends normally,
`ScanResult.err seen msg` for one that reports `error` with message `msg`
after delivering `seen`.  The `UNLINK` command is an oracle function from a
batch to either its deleted-key count or an error. -/

inductive ScanResult where
  | ok (batches : List (List String))
  | err (seen : List (List String)) (msg : String)
deriving Repr, DecidableEq

/-- One `data` event of `getKeys`: `if (keys.length) allKeys.push(...keys)` —
a non-empty batch is appended to the accumulator. -/
def pushBatch (allKeys : List String) (keys : List String) : List String :=
  if keys.length ≠ 0 then allKeys ++ keys else allKeys

/-- Models `client.getKeys(pattern)`: every non-empty `data` batch is pushed onto
`allKeys`; `end` resolves with the accumulated list; `error` rejects — the
accumulated keys are not returned. -/
def getKeys (scan : ScanResult) : Except String (List String) :=
  match scan with
  | .ok batches => .ok (batches.foldl pushBatch [])
  | .err _ msg => .error msg

/-- One `data` event of `deleteKeys`: a non-empty batch gets an `UNLINK` task;
a succeeding task adds its count to `deletedCount`, a failing one only emits a
warning (`process.emitWarning`) and adds nothing. -/
def unlinkBatch (unlink : List String → Except String Nat)
    (deletedCount : Nat) (keys : List String) : Nat :=
  if keys.length ≠ 0 then
    match unlink keys with
    | .ok n => deletedCount + n
    | .error _ => deletedCount
  else deletedCount

/-- Models `client.deleteKeys(pattern)`: each non-empty `data` batch gets an `unlink`
task; `end` awaits every task and resolves with the accumulated total; a
stream `error` rejects. -/
def deleteKeys (unlink : List String → Except String Nat) (scan : ScanResult) :
    Except String Nat :=
  match scan with
  | .ok batches => .ok (batches.foldl (unlinkBatch unlink) 0)
  | .err _ msg => .error msg

/-! ## Spec-side predicates and helper lemmas -/

/-- The specification's success condition for the health validator: the probe
settles before the 3000 ms timeout, it resolves rather than rejects, and the
connection reports status `"ready"` at that moment. -/
def validateSpec (c : ManagedRedisClient) : Prop :=
  c.pingMs < REDIS_PING_TIMEOUT_MS ∧ c.pingOk = true ∧ c.status = "ready"

/-- The count one batch contributes to the reported total: its deleted-key
count when its `UNLINK` succeeded, nothing otherwise. -/
def batchContribution (unlink : List String → Except String Nat)
    (keys : List String) : Option Nat :=
  if keys.length ≠ 0 then
    match unlink keys with
    | .ok n => some n
    | .error _ => none
  else none

/-- The sum of the deleted-key counts of exactly the non-empty batches whose
`UNLINK` succeeded. -/
def successfulBatchTotal (unlink : List String → Except String Nat)
    (batches : List (List String)) : Nat :=
  (batches.filterMap (batchContribution unlink)).sum

theorem getKeys_foldl_eq_flatten (bs : List (List String)) (acc : List String) :
    bs.foldl pushBatch acc = acc ++ bs.flatten := by
  induction bs generalizing acc with
  | nil => simp
  | cons b t ih =>
      rw [List.foldl_cons, ih, List.flatten_cons]
      unfold pushBatch
      by_cases hb : b.length ≠ 0
      · rw [if_pos hb, List.append_assoc]
      · rw [if_neg hb]
        have hb' : b = [] := by
          simpa using hb
        simp [hb']

theorem deleteKeys_foldl_eq (u : List String → Except String Nat)
    (bs : List (List String)) (acc : Nat) :
    bs.foldl (unlinkBatch u) acc = acc + successfulBatchTotal u bs := by
  induction bs generalizing acc with
  | nil => simp [successfulBatchTotal]
  | cons b t ih =>
      rw [List.foldl_cons, ih]
      unfold successfulBatchTotal
      rw [List.filterMap_cons]
      unfold unlinkBatch batchContribution
      by_cases hb : b.length ≠ 0
      · rw [if_pos hb, if_pos hb]
        cases hu : u b with
        | ok n => simp [successfulBatchTotal, Nat.add_assoc]
        | error e => simp [successfulBatchTotal]
      · rw [if_neg hb, if_neg hb]

/-! ## Claim theorems -/

/-- Claim C5: `validate(connection)` returns true iff the PING probe settles
before the fixed 3000 ms timeout, resolves successfully, and the connection's
reported status is `"ready"` at that moment; any probe error or timeout yields
false.  `validate` is a total boolean function of the connection — it never
throws. -/
theorem validate_true_iff (c : ManagedRedisClient) :
    validate c = true ↔ validateSpec c := by
  unfold validate validateSpec
  by_cases h1 : c.pingMs < REDIS_PING_TIMEOUT_MS <;>
    by_cases h2 : c.pingOk = true <;>
      simp [h1, h2]

/-- Claim C7: `getKeys` accumulates the matched keys of every iteration round,
in order, into one fully materialised list and returns it when the scan stream
ends; if the stream reports an error at any round, the call fails with that
error and none of the previously accumulated keys are returned. -/
theorem getKeys_spec :
    (∀ batches : List (List String), getKeys (.ok batches) = .ok batches.flatten)
    ∧ (∀ (seen : List (List String)) (msg : String), getKeys (.err seen msg) = .error msg) := by
  constructor
  · intro batches
    show Except.ok (batches.foldl pushBatch []) = Except.ok batches.flatten
    rw [getKeys_foldl_eq_flatten, List.nil_append]
  · intro seen msg
    rfl

/-- Claim C6: on a scan stream that ends normally, `deleteKeys` returns the sum
of the deleted-key counts of exactly the non-empty batches whose non-blocking
`UNLINK` succeeded — a failing batch contributes zero and never fails the
overall call (each batch's `UNLINK` is issued exactly once, with no retry);
only a scan-stream error fails the operation. -/
theorem deleteKeys_spec :
    (∀ (u : List String → Except String Nat) (batches : List (List String)),
        deleteKeys u (.ok batches) = .ok (successfulBatchTotal u batches))
    ∧ (∀ (u : List String → Except String Nat) (seen : List (List String)) (msg : String),
        deleteKeys u (.err seen msg) = .error msg) := by
  constructor
  · intro u batches
    show Except.ok (batches.foldl (unlinkBatch u) 0) = Except.ok (successfulBatchTotal u batches)
    rw [deleteKeys_foldl_eq, Nat.zero_add]
  · intro u seen msg
    rfl

/-- Claim C9: constructing the pool with an empty URL fails synchronously with
the configuration error, and the failure is decided before any connection
attempt; with a non-empty URL construction succeeds (so it never fails for
this reason) and starts with an empty registry — no connection exists yet. -/
theorem createRedisPool_url_spec (cfg : RedisConfig) :
    (cfg.url = "" → createRedisPool cfg =
        Except.error "[RedisPooling] Redis connection url is required.")
    ∧ (cfg.url ≠ "" → ∃ st, createRedisPool cfg = Except.ok st ∧ st.poolMap = []) := by
  constructor
  · intro h
    simp [createRedisPool, h]
  · intro h
    unfold createRedisPool
    simp [h]

/-- Witness for C9 at the concrete inputs `url = ""` and a real URL. -/
theorem createRedisPool_url_spec_witness :
    (createRedisPool { url := "" } =
        Except.error "[RedisPooling] Redis connection url is required.")
    ∧ (∃ st, createRedisPool { url := "redis://localhost:6379" } = Except.ok st
        ∧ st.poolMap = []) :=
  ⟨(createRedisPool_url_spec { url := "" }).1 rfl,
   (createRedisPool_url_spec { url := "redis://localhost:6379" }).2 (by decide)⟩

/-! ## Concrete sample objects for witnesses and counterexamples -/

/-- A concrete resolved configuration. -/
def sampleSettings : PoolSettings :=
  { url := "redis://localhost:6379", db := 0, connectTimeout := 5000, max := 10,
    min := 0, testOnBorrow := true, enableTls := false }

/-- A borrowed connection whose reported status is still `"connecting"`, homed
to partition 0, but whose active database selection currently points at
database 5. -/
def connectingClient : ManagedRedisClient :=
  { id := 1, status := "connecting", originalDbIndex := some 0, selectedDb := 5,
    selectOk := true, pingMs := 0, pingOk := true }

/-- Partition 0's pool, with `connectingClient` currently borrowed. -/
def samplePool : ClientPool :=
  { available := [], borrowed := [connectingClient], factoryDbIndex := 0,
    max := 10, min := 0, testOnBorrow := true, drainMs := some 0 }

/-- A state with `connectingClient` borrowed from partition 0's pool. -/
def sampleState : PoolState :=
  { settings := sampleSettings, poolMap := [(0, samplePool)], nextId := 2 }

/-- An empty pool for partition 0 whose drain+clear settles immediately. -/
def quickPool : ClientPool :=
  { available := [], borrowed := [], factoryDbIndex := 0, max := 10, min := 0,
    testOnBorrow := true, drainMs := some 0 }

/-- Partition 1's pool with a borrowed connection that is never released, so
its drain never settles. -/
def stuckPool : ClientPool :=
  { available := [],
    borrowed := [{ id := 7, status := "ready", originalDbIndex := some 1,
                   selectedDb := 1, selectOk := true, pingMs := 0, pingOk := true }],
    factoryDbIndex := 1, max := 10, min := 0, testOnBorrow := true,
    drainMs := none }

/-! ## Release-outcome observables (for claims C1 and C3) -/

/-- The connection with id `cid` sits in the available list of partition
`home`'s pool with its active database selection equal to `home` — outcome (a)
of the release invariant. -/
def returnedWithReselect (st : PoolState) (home cid : Nat) : Bool :=
  match mapGet st.poolMap home with
  | some pool => pool.available.any (fun c => c.id == cid && c.selectedDb == home)
  | none => false

/-- The connection with id `cid` is still a member (idle or borrowed) of
partition `home`'s pool — the negation of outcome (b), permanent discard. -/
def stillInHomePool (st : PoolState) (home cid : Nat) : Bool :=
  match mapGet st.poolMap home with
  | some pool => (pool.available ++ pool.borrowed).any (fun c => c.id == cid)
  | none => false

/-! ## Claims C1 and C3 -/

/-- Counterexample to claim C1 as stated: releasing a borrowed connection whose
status is `"connecting"` does change its home-partition pool — the connection
is moved back into the pool's available list — so the pool's contents are not
left unchanged by the call. -/
theorem release_connecting_changes_pool :
    (release sampleState (some connectingClient)).poolMap ≠ sampleState.poolMap
    ∧ mapGet (release sampleState (some connectingClient)).poolMap 0
        = some { samplePool with borrowed := [], available := [connectingClient] } := by
  constructor
  · decide
  · decide

/-- Claim C1 (amended): for a connection whose status is neither `"ready"` nor
`"close"`/`"end"`, release takes no status-specific action — no discard and no
reselect — but then falls into the common return path: the connection is handed
back to its home-partition pool unchanged (its database selection untouched),
not discarded. -/
theorem release_inert_returns_to_pool (st : PoolState) (c : ManagedRedisClient)
    (pool : ClientPool)
    (hready : c.status ≠ "ready") (hclose : c.status ≠ "close") (hend : c.status ≠ "end")
    (hpool : mapGet st.poolMap (c.originalDbIndex.getD st.settings.db) = some pool) :
    release st (some c)
      = { st with poolMap := (mapSet st.poolMap (c.originalDbIndex.getD st.settings.db)
            (pool.releaseClient c)) } := by
  simp only [release]
  rw [hpool]
  simp [hready, hclose, hend]

/-- Witness for the amended C1 at a concrete input: the `"connecting"` client
is returned, as-is, to partition 0's pool. -/
theorem release_inert_returns_to_pool_witness :
    release sampleState (some connectingClient)
      = { sampleState with
            poolMap := mapSet sampleState.poolMap 0 (samplePool.releaseClient connectingClient) } :=
  release_inert_returns_to_pool sampleState connectingClient samplePool
    (by decide) (by decide) (by decide) (by decide)

/-- Counterexample to claim C3 as stated: after releasing the `"connecting"`
connection (home partition 0, active selection 5), the connection is neither
returned-with-reselect (its selection still is not its home partition) nor
discarded (it is still a member of its home pool) — a third outcome. -/
theorem release_third_outcome :
    returnedWithReselect (release sampleState (some connectingClient)) 0 1 = false
    ∧ stillInHomePool (release sampleState (some connectingClient)) 0 1 = true := by
  constructor
  · decide
  · decide

/-- Claim C3 (amended): when the home-partition pool still exists, a released
connection ends in exactly one of three ways: discarded from the pool; returned
with its database selection reset to the home partition (status `"ready"`,
successful select); or — for a status that is neither `"ready"` nor
`"close"`/`"end"` — returned to the pool without the reselect. -/
theorem release_outcome_trichotomy (st : PoolState) (c : ManagedRedisClient)
    (pool : ClientPool)
    (hpool : mapGet st.poolMap (c.originalDbIndex.getD st.settings.db) = some pool) :
    (release st (some c)).poolMap
        = mapSet st.poolMap (c.originalDbIndex.getD st.settings.db)
            (pool.destroyClient c)
    ∨ (release st (some c)).poolMap
        = mapSet st.poolMap (c.originalDbIndex.getD st.settings.db)
            (pool.releaseClient
              { c with selectedDb := c.originalDbIndex.getD st.settings.db })
    ∨ ((c.status ≠ "ready" ∧ c.status ≠ "close" ∧ c.status ≠ "end")
        ∧ (release st (some c)).poolMap
            = mapSet st.poolMap (c.originalDbIndex.getD st.settings.db)
                (pool.releaseClient c)) := by
  by_cases hec : c.status = "end" ∨ c.status = "close"
  · left
    simp only [release]
    rw [hpool]
    have hr : c.status ≠ "ready" := by
      rcases hec with h | h <;> simp [h]
    simp [hec, hr]
  · by_cases hr : c.status = "ready"
    · by_cases hs : c.selectOk = true
      · right; left
        simp only [release]
        rw [hpool]
        simp [hec, hr, hs]
      · left
        have hs' : c.selectOk = false := by
          simpa using hs
        simp only [release]
        rw [hpool]
        simp [hec, hr, hs']
    · right; right
      push_neg at hec
      refine ⟨⟨hr, hec.2, hec.1⟩, ?_⟩
      simp only [release]
      rw [hpool]
      simp [hec.1, hec.2, hr]

/-- Witness for the amended C3 at a concrete input. -/
theorem release_outcome_trichotomy_witness :
    (release sampleState (some connectingClient)).poolMap
        = mapSet sampleState.poolMap 0 (samplePool.destroyClient connectingClient)
    ∨ (release sampleState (some connectingClient)).poolMap
        = mapSet sampleState.poolMap 0
            (samplePool.releaseClient { connectingClient with selectedDb := 0 })
    ∨ ((connectingClient.status ≠ "ready" ∧ connectingClient.status ≠ "close"
          ∧ connectingClient.status ≠ "end")
        ∧ (release sampleState (some connectingClient)).poolMap
            = mapSet sampleState.poolMap 0 (samplePool.releaseClient connectingClient)) :=
  release_outcome_trichotomy sampleState connectingClient samplePool (by decide)

/-! ## Claim C2 -/

/-- A configuration whose default partition index is 2. -/
def cfgDb2 : RedisConfig :=
  { url := "redis://localhost:6379", db := some 2 }

/-- Claim C2 (code bug, evaluated at the failing input): for the pool
constructed with default partition index `db = 2`, `acquire()` with no
argument resolves the effective partition to the literal 0 (`dbIndex ?? 0`),
not to the configured default: the returned connection is homed to partition
0, partition 0's pool is created, and no pool for partition 2 exists. -/
theorem acquire_ignores_configured_default :
    ∃ st, createRedisPool cfgDb2 = Except.ok st ∧ st.settings.db = 2
      ∧ (acquire st none).1.originalDbIndex = some 0
      ∧ mapGet (acquire st none).2.poolMap 2 = none
      ∧ (mapGet (acquire st none).2.poolMap 0).isSome = true := by
  refine ⟨_, rfl, rfl, ?_, ?_, ?_⟩ <;> decide

/-! ## Claims C4 and C10 (destroy) -/

/-- Claim C4: `destroy(timeout_ms)` removes from the registry the entry of each
partition whose drain-plus-clear completes within the deadline, in iteration
order; at the first partition whose drain-plus-clear does not complete in time
(e.g. a borrowed connection is never released) the call fails with the timeout
error naming that partition's index, and that partition's entry remains in the
registry untouched (not removed, not force-closed).  When every partition
completes in time, every entry is removed and no error is reported. -/
theorem destroy_timeout_spec :
    (∀ (t : Nat) (pre : PoolMap) (i : Nat) (p : ClientPool) (suf : PoolMap),
        (∀ e ∈ pre, completesWithin e.2 t = true) →
        completesWithin p t = false →
        destroyLoop t (pre ++ (i, p) :: suf) = ((i, p) :: suf, some i))
    ∧ (∀ (t : Nat) (m : PoolMap),
        (∀ e ∈ m, completesWithin e.2 t = true) →
        destroyLoop t m = ([], none)) := by
  constructor
  · intro t pre
    induction pre with
    | nil =>
        intro i p suf hpre hp
        simp [destroyLoop, hp]
    | cons e rest ih =>
        intro i p suf hpre hp
        obtain ⟨j, q⟩ := e
        have hq : completesWithin q t = true := hpre (j, q) (List.mem_cons_self _ _)
        simp only [List.cons_append, destroyLoop, hq, if_true]
        exact ih i p suf (fun e he => hpre e (List.mem_cons_of_mem _ he)) hp
  · intro t m
    induction m with
    | nil =>
        intro _
        rfl
    | cons e rest ih =>
        intro hm
        obtain ⟨j, q⟩ := e
        have hq : completesWithin q t = true := hm (j, q) (List.mem_cons_self _ _)
        simp only [destroyLoop, hq, if_true]
        exact ih (fun e he => hm e (List.mem_cons_of_mem _ he))

/-- Witness for C4 at a concrete input: partition 0 drains immediately,
partition 1 holds a never-released connection; `destroy(100)` removes
partition 0's entry, then fails naming partition 1, whose entry remains. -/
theorem destroy_timeout_spec_witness :
    destroyLoop 100 ([(0, quickPool)] ++ (1, stuckPool) :: [])
      = ((1, stuckPool) :: [], some 1) :=
  destroy_timeout_spec.1 100 [(0, quickPool)] 1 stuckPool []
    (by decide) (by decide)

/-- Claim C10: destroy walks the registry sequentially in iteration order, and
a timeout aborts the whole call at once: whenever `destroy` reports a timeout
on partition `i`, the registry decomposes into a fully processed prefix (every
entry of which completed its drain in time and was removed) followed by
partition `i`'s entry and every not-yet-reached entry, all of which remain
registered with their pools untouched — never drained or cleared by that
call. -/
theorem destroy_abort_decomposition (t : Nat) (m m' : PoolMap) (i : Nat)
    (h : destroyLoop t m = (m', some i)) :
    ∃ pre p suf, m = pre ++ (i, p) :: suf ∧ m' = (i, p) :: suf
      ∧ (∀ e ∈ pre, completesWithin e.2 t = true)
      ∧ completesWithin p t = false := by
  induction m generalizing m' with
  | nil =>
      exfalso
      simp [destroyLoop] at h
  | cons e rest ih =>
      obtain ⟨j, q⟩ := e
      by_cases hq : completesWithin q t = true
      · rw [show destroyLoop t ((j, q) :: rest)
              = destroyLoop t rest by simp [destroyLoop, hq]] at h
        obtain ⟨pre, p, suf, h1, h2, h3, h4⟩ := ih m' h
        refine ⟨(j, q) :: pre, p, suf, ?_, h2, ?_, h4⟩
        · rw [List.cons_append, h1]
        · intro e he
          rcases List.mem_cons.mp he with he | he
          · rw [he]
            exact hq
          · exact h3 e he
      · have hq' : completesWithin q t = false := by
          simpa using hq
        rw [show destroyLoop t ((j, q) :: rest)
              = ((j, q) :: rest, some j) by simp [destroyLoop, hq']] at h
        injection h with h1 h2
        injection h2 with h3
        subst h3
        refine ⟨[], q, rest, rfl, h1.symm, ?_, hq'⟩
        intro e he
        exact absurd he (List.not_mem_nil e)

/-- Witness for C10 at a concrete input: the timeout on partition 1 leaves the
registry holding exactly the offending entry, with partition 0's entry (which
drained in time) removed. -/
theorem destroy_abort_decomposition_witness :
    ∃ pre p suf, ([(0, quickPool), (1, stuckPool)] : PoolMap) = pre ++ (1, p) :: suf
      ∧ ([(1, stuckPool)] : PoolMap) = (1, p) :: suf
      ∧ (∀ e ∈ pre, completesWithin e.2 100 = true)
      ∧ completesWithin p 100 = false :=
  destroy_abort_decomposition 100 [(0, quickPool), (1, stuckPool)] [(1, stuckPool)] 1
    (by decide)

/-! ## Claim C8 (registry) -/

theorem mapGet_eq_none_iff (m : PoolMap) (k : Nat) :
    mapGet m k = none ↔ k ∉ registryKeys m := by
  induction m with
  | nil => simp [mapGet, registryKeys]
  | cons e rest ih =>
      obtain ⟨k', v⟩ := e
      by_cases h : k' = k
      · subst h
        simp [mapGet, registryKeys]
      · simp [mapGet, registryKeys, h, ih, Ne.symm h]

theorem mapGet_append_right (m : PoolMap) (k : Nat) (v : ClientPool)
    (h : mapGet m k = none) : mapGet (m ++ [(k, v)]) k = some v := by
  induction m with
  | nil => simp [mapGet]
  | cons e rest ih =>
      obtain ⟨k', v'⟩ := e
      by_cases hk : k' = k
      · simp [mapGet, hk] at h
      · simp only [mapGet, hk, if_false, List.cons_append] at h ⊢
        exact ih h

theorem registryKeys_mapSet_mem (m : PoolMap) (k : Nat) (v : ClientPool)
    (h : mapGet m k ≠ none) :
    registryKeys (mapSet m k v) = registryKeys m := by
  induction m with
  | nil => simp [mapGet] at h
  | cons e rest ih =>
      obtain ⟨k', v'⟩ := e
      by_cases hk : k' = k
      · subst hk
        simp [mapSet, registryKeys]
      · have h' : mapGet rest k ≠ none := by
          simpa [mapGet, hk] using h
        have hrec := ih h'
        simp only [registryKeys] at hrec
        simp [mapSet, registryKeys, hk, hrec]

theorem getPool_snd_mapGet (s : PoolSettings) (m : PoolMap) (i : Nat) :
    mapGet (getPool s m i).2 i = some (getPool s m i).1 := by
  unfold getPool
  cases h : mapGet m i with
  | some pool => simpa using h
  | none => simpa using mapGet_append_right m i (createSingleDbPool s i) h

theorem registryKeys_getPool (s : PoolSettings) (m : PoolMap) (i : Nat) :
    registryKeys (getPool s m i).2 = registryKeys m
    ∨ registryKeys (getPool s m i).2 = registryKeys m ++ [i] := by
  unfold getPool
  cases h : mapGet m i with
  | some pool => left; rfl
  | none =>
      right
      simp [registryKeys]

/-- The only two shapes release can leave the registry in: untouched (absent
client, or home pool gone), or the home entry overwritten in place. -/
theorem release_poolMap_shape (st : PoolState) (c : ManagedRedisClient) :
    (release st (some c)).poolMap = st.poolMap
    ∨ ∃ pool', mapGet st.poolMap (c.originalDbIndex.getD st.settings.db) ≠ none
        ∧ (release st (some c)).poolMap
            = mapSet st.poolMap (c.originalDbIndex.getD st.settings.db) pool' := by
  simp only [release]
  cases h : mapGet st.poolMap (c.originalDbIndex.getD st.settings.db) with
  | none => left; rfl
  | some pool =>
      right
      by_cases hec : c.status = "end" ∨ c.status = "close"
      · have hr : c.status ≠ "ready" := by
          rcases hec with h' | h' <;> simp [h']
        exact ⟨pool.destroyClient c, by simp [h], by simp [hec, hr]⟩
      · by_cases hr : c.status = "ready"
        · by_cases hs : c.selectOk = true
          · exact ⟨pool.releaseClient
                { c with selectedDb := c.originalDbIndex.getD st.settings.db },
              by simp [h], by simp [hec, hr, hs]⟩
          · have hs' : c.selectOk = false := by
              simpa using hs
            exact ⟨pool.destroyClient c, by simp [h], by simp [hec, hr, hs']⟩
        · exact ⟨pool.releaseClient c, by simp [h], by simp [hec, hr]⟩

/-- Claim C8: the partition-pool registry behaves as a lazily populated
one-pool-per-partition map: `getPool` is idempotent (a second call with the
same index returns the same pool and leaves the registry unchanged); a hit
returns the registered pool without mutation; a miss lazily creates and
registers exactly one new pool; construction starts with an empty registry;
`getPool` preserves key uniqueness (at most one pool per partition index);
`release` never adds or removes a registry entry; `acquire` never removes one;
and `destroy` removes an entry only when that partition's drain completed
within the deadline. -/
theorem registry_spec :
    (∀ (s : PoolSettings) (m : PoolMap) (i : Nat),
        getPool s (getPool s m i).2 i = getPool s m i)
    ∧ (∀ (s : PoolSettings) (m : PoolMap) (i : Nat) (p : ClientPool),
        mapGet m i = some p → getPool s m i = (p, m))
    ∧ (∀ (s : PoolSettings) (m : PoolMap) (i : Nat),
        mapGet m i = none →
          getPool s m i = (createSingleDbPool s i, m ++ [(i, createSingleDbPool s i)]))
    ∧ (∀ (cfg : RedisConfig) (st : PoolState),
        createRedisPool cfg = Except.ok st → st.poolMap = [])
    ∧ (∀ (s : PoolSettings) (m : PoolMap) (i : Nat),
        (registryKeys m).Nodup → (registryKeys (getPool s m i).2).Nodup)
    ∧ (∀ (st : PoolState) (c? : Option ManagedRedisClient),
        registryKeys (release st c?).poolMap = registryKeys st.poolMap)
    ∧ (∀ (st : PoolState) (d : Option Nat) (j : Nat),
        j ∈ registryKeys st.poolMap → j ∈ registryKeys (acquire st d).2.poolMap)
    ∧ (∀ (t : Nat) (m : PoolMap) (i : Nat) (p : ClientPool),
        (i, p) ∈ m → (i, p) ∉ (destroyLoop t m).1 → completesWithin p t = true) := by
  refine ⟨?_, ?_, ?_, ?_, ?_, ?_, ?_, ?_⟩
  · intro s m i
    have h := getPool_snd_mapGet s m i
    conv_lhs => rw [getPool]
    rw [h]
  · intro s m i p h
    simp [getPool, h]
  · intro s m i h
    simp [getPool, h]
  · intro cfg st h
    unfold createRedisPool at h
    by_cases hu : cfg.url = ""
    · simp [hu] at h
    · simp only [hu, if_false, Except.ok.injEq] at h
      rw [← h]
  · intro s m i hm
    unfold getPool
    cases h : mapGet m i with
    | some pool => exact hm
    | none =>
        have hni : i ∉ registryKeys m := (mapGet_eq_none_iff m i).mp h
        simp only [registryKeys, List.map_append, List.map_cons, List.map_nil]
        rw [List.nodup_append]
        refine ⟨hm, List.nodup_singleton i, ?_⟩
        intro a ha hb
        rw [List.mem_singleton] at hb
        subst hb
        exact hni ha
  · intro st c?
    cases c? with
    | none => rfl
    | some c =>
        rcases release_poolMap_shape st c with h | ⟨pool', hne, h⟩
        · rw [h]
        · rw [h]
          exact registryKeys_mapSet_mem _ _ _ hne
  · intro st d j hj
    simp only [acquire]
    rw [registryKeys_mapSet_mem _ _ _ (by
      rw [getPool_snd_mapGet]
      exact Option.some_ne_none _)]
    rcases registryKeys_getPool st.settings st.poolMap (d.getD 0) with h | h
    · rw [h]; exact hj
    · rw [h]; exact List.mem_append_left _ hj
  · intro t m i p hin hout
    induction m with
    | nil => cases hin
    | cons e rest ih =>
        obtain ⟨j, q⟩ := e
        by_cases hq : completesWithin q t = true
        · rcases List.mem_cons.mp hin with he | he
          · obtain ⟨h1, h2⟩ := Prod.mk.injEq .. ▸ he
            rw [h2]
            exact hq
          · refine ih he ?_
            intro hcontra
            apply hout
            rw [show destroyLoop t ((j, q) :: rest) = destroyLoop t rest by
              simp [destroyLoop, hq]]
            exact hcontra
        · exfalso
          apply hout
          have hq' : completesWithin q t = false := by simpa using hq
          rw [show destroyLoop t ((j, q) :: rest) = ((j, q) :: rest, some j) by
            simp [destroyLoop, hq']]
          exact hin

/-- Witness for C8 at concrete inputs: a hit returns the registered pool
unchanged, a miss on an empty registry lazily creates the entry, key
uniqueness is preserved, a freshly constructed state has an empty registry,
acquire keeps partition 0 registered, and an entry removed by destroy had
completed its drain in time. -/
theorem registry_spec_witness :
    getPool sampleSettings [(0, samplePool)] 0 = (samplePool, [(0, samplePool)])
    ∧ getPool sampleSettings [] 0
        = (createSingleDbPool sampleSettings 0, [] ++ [(0, createSingleDbPool sampleSettings 0)])
    ∧ (PoolState.mk sampleSettings [] 0).poolMap = []
    ∧ (registryKeys (getPool sampleSettings [(0, samplePool)] 1).2).Nodup
    ∧ 0 ∈ registryKeys (acquire sampleState none).2.poolMap
    ∧ completesWithin quickPool 100 = true :=
  ⟨registry_spec.2.1 sampleSettings [(0, samplePool)] 0 samplePool (by decide),
   registry_spec.2.2.1 sampleSettings [] 0 rfl,
   registry_spec.2.2.2.1 { url := "redis://localhost:6379" } (PoolState.mk sampleSettings [] 0)
     (by rfl),
   registry_spec.2.2.2.2.1 sampleSettings [(0, samplePool)] 1 (by decide),
   registry_spec.2.2.2.2.2.2.1 sampleState none 0 (by decide),
   registry_spec.2.2.2.2.2.2.2 100 [(0, quickPool)] 0 quickPool (by decide) (by decide)⟩
